import Mathlib

/-!
Verification of the cart/checkout core of the `ecommerce_api` repository
(`src/main.py`).  The in-memory dictionaries `users_db`, `products_db` and
`carts_db` are embedded as association lists keyed by `Int` (Python `int`
keys); `float` prices are embedded as rationals; the FastAPI
`HTTPException(status_code, detail)` failures are embedded as an `ApiError`
value carrying the status code and detail string.
-/

namespace Ecommerce

/-- Embeds the pydantic `Product` model of `main.py` (`id`, `name`,
`description`, `price`, `image`, `stock`); the `float` price is a rational. -/
structure Product where
  id : Int
  name : String
  description : String
  price : ℚ
  image : String
  stock : Int
deriving Repr, DecidableEq

/-- Embeds the pydantic `ProductInOrder` model: one cart line item. -/
structure ProductInOrder where
  product_id : Int
  quantity : Int
deriving Repr, DecidableEq

/-- Embeds the stored user record of `users_db` (the dict built in
`register_user`). -/
structure User where
  id : Int
  username : String
  email : String
  password : String
deriving Repr, DecidableEq

/-- Embeds the pydantic `AddToCartRequest` model. -/
structure AddToCartRequest where
  user_id : Int
  product_id : Int
  quantity : Int
deriving Repr, DecidableEq

/-- A cart, as stored in `carts_db`: a Python list of `ProductInOrder`. -/
abbrev Cart := List ProductInOrder

/-- Embeds `HTTPException(status_code=..., detail=...)`. -/
structure ApiError where
  status_code : Nat
  detail : String
deriving Repr, DecidableEq

/-- Embeds the pydantic `CheckoutSummary` model returned by `checkout`. -/
structure CheckoutSummary where
  cart_items : Cart
  total_price : ℚ
deriving Repr, DecidableEq

/-- Python dict lookup `d.get(k)`: first (unique) binding of `k`. -/
def dictGet {α : Type} : List (Int × α) → Int → Option α
  | [], _ => none
  | (k₀, v₀) :: rest, k => if k₀ = k then some v₀ else dictGet rest k

/-- Python dict assignment `d[k] = v`: replace the binding of `k` in place,
or append a fresh binding. -/
def dictSet {α : Type} : List (Int × α) → Int → α → List (Int × α)
  | [], k, v => [(k, v)]
  | (k₀, v₀) :: rest, k, v =>
    if k₀ = k then (k, v) :: rest else (k₀, v₀) :: dictSet rest k v

/-- Python membership test `k in d`. -/
def dictHas {α : Type} (d : List (Int × α)) (k : Int) : Bool :=
  (dictGet d k).isSome

/-- The mutable global state of `main.py` that the cart core touches:
`users_db`, `products_db` and `carts_db`. -/
structure State where
  users_db : List (Int × User)
  products_db : List (Int × Product)
  carts_db : List (Int × Cart)
deriving Repr, DecidableEq

/-- The in-place merge loop of `add_to_cart` (`main.py` lines 200-213):
scan the cart for the first line item with the requested product id and add
the requested quantity to it; if none is found, append a new line item. -/
def mergeLine : Cart → Int → Int → Cart
  | [], pid, q => [⟨pid, q⟩]
  | item :: rest, pid, q =>
    if item.product_id = pid then ⟨item.product_id, item.quantity + q⟩ :: rest
    else item :: mergeLine rest pid q

/-- Embeds `add_to_cart` (`main.py` lines 177-215).  Returns the state after
the call together with the outcome; every `raise` happens before any write
to `carts_db`, so the state component on an error is the input state. -/
def add_to_cart (s : State) (req : AddToCartRequest) :
    State × Except ApiError String :=
  if ¬ dictHas s.users_db req.user_id then
    (s, .error ⟨404, "User not found"⟩)
  else
    match dictGet s.products_db req.product_id with
    | none => (s, .error ⟨404, "Product not found"⟩)
    | some product =>
      if req.quantity > product.stock then
        (s, .error ⟨400, "Not enough stock for product \x27" ++
          product.name ++ "\x27."⟩)
      else
        let cart_items := (dictGet s.carts_db req.user_id).getD []
        let cart_items := mergeLine cart_items req.product_id req.quantity
        (⟨s.users_db, s.products_db, dictSet s.carts_db req.user_id cart_items⟩,
          .ok ("Added " ++ toString req.quantity ++ " of product " ++
            toString req.product_id ++ " to cart for user " ++
            toString req.user_id))

/-- Embeds `get_cart` (`main.py` lines 224-228).  `if not cart` is Python
truthiness: both an absent entry (`None`) and an empty list raise 404. -/
def get_cart (s : State) (user_id : Int) : Except ApiError Cart :=
  match dictGet s.carts_db user_id with
  | none => .error ⟨404, "Cart not found for this user"⟩
  | some [] => .error ⟨404, "Cart not found for this user"⟩
  | some cart => .ok cart

/-- The accumulation loop of `checkout` (`main.py` lines 249-258): resolve
each line item against `products_db`, failing on the first missing product,
otherwise accumulate `product.price * item.quantity`. -/
def checkoutLoop (products_db : List (Int × Product)) :
    Cart → ℚ → Except ApiError ℚ
  | [], total_price => .ok total_price
  | item :: rest, total_price =>
    match dictGet products_db item.product_id with
    | none => .error ⟨404, "Product with ID " ++ toString item.product_id ++
        " in cart not found."⟩
    | some product =>
      checkoutLoop products_db rest
        (total_price + product.price * (item.quantity : ℚ))

/-- Embeds `checkout` (`main.py` lines 236-263).  `if not cart_items` is
Python truthiness, so an absent and an empty cart both raise 404. -/
def checkout (s : State) (user_id : Int) : Except ApiError CheckoutSummary :=
  if ¬ dictHas s.users_db user_id then
    .error ⟨404, "User not found"⟩
  else
    match dictGet s.carts_db user_id with
    | none => .error ⟨404, "Cart not found for this user."⟩
    | some [] => .error ⟨404, "Cart not found for this user."⟩
    | some cart_items =>
      match checkoutLoop s.products_db cart_items 0 with
      | .error e => .error e
      | .ok total_price => .ok ⟨cart_items, total_price⟩

/-- The spec's `NotFound` error kind: HTTP status 404. -/
def isNotFound (e : ApiError) : Bool := e.status_code = 404

/-- The spec's `InsufficientStock` error kind: the HTTP 400 raised by the
stock gate of `add_to_cart`. -/
def isInsufficientStock (e : ApiError) : Bool := e.status_code = 400

/-- One cart-API call, as a relation on states.  `get_cart` and `checkout`
never write to any store in the source, and a failing `add_to_cart` raises
before every write, so the state after any `AddToCart`/`GetCart`/`Checkout`
call is `(add_to_cart s req).1` for some request (or `s` itself). -/
def stepAdd (s s' : State) : Prop := ∃ req, (add_to_cart s req).1 = s'

/-- States reachable by a sequence of `AddToCart`/`GetCart`/`Checkout`
calls from an initial state whose Cart Ledger `carts_db` is empty. -/
inductive Reachable : State → Prop where
  | init (users : List (Int × User)) (products : List (Int × Product)) :
      Reachable ⟨users, products, []⟩
  | step {s s' : State} : Reachable s → stepAdd s s' → Reachable s'

/-- Runs a sequence of `add_to_cart` calls, returning the final state if
every call succeeds and `none` if any call fails. -/
def runAdds : State → List AddToCartRequest → Option State
  | s, [] => some s
  | s, req :: rest =>
    match add_to_cart s req with
    | (s', Except.ok _) => runAdds s' rest
    | (_, Except.error _) => none

/-- First-insertion order of a sequence of product ids: each id is placed
at the position of its first occurrence, later occurrences change nothing.
Follows the spec's words for the order-preservation property. -/
def insertionOrder (acc : List Int) : List Int → List Int
  | [] => acc
  | pid :: rest =>
    insertionOrder (if pid ∈ acc then acc else acc ++ [pid]) rest

/-- The spec's checkout total (follows the spec's words): the sum over the
cart's line items of the catalog unit price of the referenced product times
the line item's quantity. -/
def specCartTotal (products_db : List (Int × Product)) (cart : Cart) : ℚ :=
  (cart.map (fun item =>
    (((dictGet products_db item.product_id).map Product.price).getD 0) *
      (item.quantity : ℚ))).sum

/-- Sample user record, as `register_user` would store user 1. -/
def sampleUser : User := ⟨1, "kwabena", "kwabena@example.com", "pw123"⟩

/-- The first seeded catalog product of `main.py` (line 94). -/
def sampleProduct : Product :=
  ⟨1, "Smartphone", "A great phone with a fantastic camera.", 699.99,
    "https://example.com/smartphone.jpg", 15⟩

/-- The second seeded catalog product of `main.py` (line 95). -/
def sampleProduct2 : Product :=
  ⟨2, "Laptop", "Powerful laptop for work and gaming.", 1200.00,
    "https://example.com/laptop.jpg", 8⟩

/-- A concrete state: one registered user, two catalog products, no carts. -/
def sampleState : State :=
  ⟨[(1, sampleUser)], [(1, sampleProduct), (2, sampleProduct2)], []⟩

/-- The state after `add_to_cart sampleState ⟨1, 1, 5⟩`. -/
def sampleState1 : State :=
  ⟨sampleState.users_db, sampleState.products_db, [(1, [⟨1, 5⟩])]⟩

/-- A state in which user 1's cart references product 2 after the catalog
(mutated externally, which the core must tolerate) no longer holds it. -/
def sampleStateMissing : State :=
  ⟨[(1, sampleUser)], [(1, sampleProduct)], [(1, [⟨2, 3⟩])]⟩

/-! ### Dictionary lemmas -/

theorem dictGet_dictSet_self {α : Type} (d : List (Int × α)) (k : Int) (v : α) :
    dictGet (dictSet d k v) k = some v := by
  induction d with
  | nil => simp [dictSet, dictGet]
  | cons hd tl ih =>
    obtain ⟨k₀, v₀⟩ := hd
    by_cases hk : k₀ = k
    · simp [dictSet, dictGet, hk]
    · simp [dictSet, dictGet, hk, ih]

theorem dictGet_dictSet_ne {α : Type} (d : List (Int × α)) (k k' : Int) (v : α)
    (h : k' ≠ k) : dictGet (dictSet d k v) k' = dictGet d k' := by
  induction d with
  | nil => simp [dictSet, dictGet, Ne.symm h]
  | cons hd tl ih =>
    obtain ⟨k₀, v₀⟩ := hd
    by_cases hk : k₀ = k
    · subst hk
      simp [dictSet, dictGet, Ne.symm h]
    · simp [dictSet, dictGet, hk, ih]

theorem dictHas_dictSet {α : Type} (d : List (Int × α)) (k k' : Int) (v : α)
    (h : dictHas (dictSet d k v) k' = true) : k' = k ∨ dictHas d k' = true := by
  by_cases hk : k' = k
  · exact Or.inl hk
  · right
    rwa [dictHas, dictGet_dictSet_ne d k k' v hk] at h

/-! ### Merge-loop lemmas -/

theorem mergeLine_map (cart : Cart) (pid q : Int) :
    (mergeLine cart pid q).map (·.product_id) =
      if pid ∈ cart.map (·.product_id) then cart.map (·.product_id)
      else cart.map (·.product_id) ++ [pid] := by
  induction cart with
  | nil => simp [mergeLine]
  | cons item rest ih =>
    by_cases hp : item.product_id = pid
    · simp [mergeLine, hp]
    · by_cases hm : pid ∈ rest.map (·.product_id)
      · simp [mergeLine, hp, ih, hm, Ne.symm hp]
      · simp [mergeLine, hp, ih, hm, Ne.symm hp]

theorem mergeLine_not_mem (cart : Cart) (pid q : Int)
    (h : pid ∉ cart.map (·.product_id)) :
    mergeLine cart pid q = cart ++ [⟨pid, q⟩] := by
  induction cart with
  | nil => simp [mergeLine]
  | cons item rest ih =>
    simp only [List.map_cons, List.mem_cons] at h
    push_neg at h
    simp [mergeLine, Ne.symm h.1, ih h.2]

theorem mergeLine_append (cart : Cart) (pid q₁ q₂ : Int)
    (h : pid ∉ cart.map (·.product_id)) :
    mergeLine (cart ++ [⟨pid, q₁⟩]) pid q₂ = cart ++ [⟨pid, q₁ + q₂⟩] := by
  induction cart with
  | nil => simp [mergeLine]
  | cons item rest ih =>
    simp only [List.map_cons, List.mem_cons] at h
    push_neg at h
    simp [mergeLine, Ne.symm h.1, ih h.2]

theorem mergeLine_nodup (cart : Cart) (pid q : Int)
    (h : (cart.map (·.product_id)).Nodup) :
    ((mergeLine cart pid q).map (·.product_id)).Nodup := by
  rw [mergeLine_map]
  by_cases hm : pid ∈ cart.map (·.product_id)
  · simpa [hm] using h
  · simp [hm, List.nodup_append, h]

/-! ### Outcome characterization for `add_to_cart` -/

theorem add_to_cart_ok {s : State} {req : AddToCartRequest} {s' : State}
    {m : String} (h : add_to_cart s req = (s', Except.ok m)) :
    dictHas s.users_db req.user_id = true ∧
    ∃ product, dictGet s.products_db req.product_id = some product ∧
      req.quantity ≤ product.stock ∧
      s' = ⟨s.users_db, s.products_db,
        dictSet s.carts_db req.user_id
          (mergeLine ((dictGet s.carts_db req.user_id).getD [])
            req.product_id req.quantity)⟩ := by
  unfold add_to_cart at h
  split at h
  · simp at h
  next huser =>
    rw [Bool.not_eq_true, Bool.not_eq_false] at huser
    refine ⟨huser, ?_⟩
    split at h
    · simp at h
    next product hprod =>
      split at h
      · simp at h
      next hstock =>
        injection h with h1 h2
        exact ⟨product, hprod, by omega, h1.symm⟩

theorem add_to_cart_error {s s' : State} {req : AddToCartRequest} {e : ApiError}
    (h : add_to_cart s req = (s', Except.error e)) : s' = s := by
  unfold add_to_cart at h
  split at h
  · injection h with h1 h2
    exact h1.symm
  · split at h
    · injection h with h1 h2
      exact h1.symm
    · split at h
      · injection h with h1 h2
        exact h1.symm
      · injection h with h1 h2
        exact absurd h2 (by simp)

/-! ### Claim theorems -/

/-- C1: for a user and product both present, two successful `add_to_cart`
calls for the same product (starting from a cart with no line item for that
product) leave exactly one line item for it, with quantity `q₁ + q₂` —
never two separate line items. -/
theorem merge_additivity (s s₁ s₂ : State) (uid pid q₁ q₂ : Int)
    (m₁ m₂ : String)
    (hfresh : pid ∉ ((dictGet s.carts_db uid).getD []).map (·.product_id))
    (h₁ : add_to_cart s ⟨uid, pid, q₁⟩ = (s₁, Except.ok m₁))
    (h₂ : add_to_cart s₁ ⟨uid, pid, q₂⟩ = (s₂, Except.ok m₂)) :
    ∃ cart, dictGet s₂.carts_db uid = some cart ∧
      cart.filter (fun item => item.product_id == pid) = [⟨pid, q₁ + q₂⟩] := by
  obtain ⟨-, p₁, hp₁, -, hs₁⟩ := add_to_cart_ok h₁
  obtain ⟨-, p₂, hp₂, -, hs₂⟩ := add_to_cart_ok h₂
  subst hs₂
  subst hs₁
  simp only [dictGet_dictSet_self, Option.getD_some]
  rw [mergeLine_not_mem _ _ _ hfresh]
  rw [mergeLine_append _ _ _ _ hfresh]
  refine ⟨_, rfl, ?_⟩
  have hnil : ((dictGet s.carts_db uid).getD []).filter
      (fun item => item.product_id == pid) = [] := by
    rw [List.filter_eq_nil_iff]
    intro item hitem he
    rw [beq_iff_eq] at he
    exact hfresh (List.mem_map.mpr ⟨item, hitem, he⟩)
  simp [List.filter_append, hnil]

/-- C1 witness: adding quantities 5 then 3 of product 1 for user 1 in
`sampleState` yields the single line item `(1, 8)`. -/
theorem merge_additivity_witness :
    ((1 : Int) ∉ ((dictGet sampleState.carts_db 1).getD []).map
      (·.product_id)) ∧
    (∃ cart,
      dictGet (State.mk sampleState.users_db sampleState.products_db
        [(1, [⟨1, 8⟩])]).carts_db 1 = some cart ∧
      cart.filter (fun item => item.product_id == 1) = [⟨1, 8⟩]) := by
  refine ⟨by simp [sampleState, dictGet], ?_⟩
  exact merge_additivity sampleState
    (State.mk sampleState.users_db sampleState.products_db [(1, [⟨1, 5⟩])])
    (State.mk sampleState.users_db sampleState.products_db [(1, [⟨1, 8⟩])])
    1 1 5 3
    "Added 5 of product 1 to cart for user 1"
    "Added 3 of product 1 to cart for user 1"
    (by simp [sampleState, dictGet]) rfl rfl

/-- C3: for an existing user and product, `add_to_cart` fails with the
`InsufficientStock` error if and only if the requested quantity exceeds the
product's current stock; the arbitrary `carts_db` in `s` shows the check
ignores any quantity already in the cart. -/
theorem stock_gate (s : State) (uid pid q : Int) (u : User) (p : Product)
    (hu : dictGet s.users_db uid = some u)
    (hp : dictGet s.products_db pid = some p) :
    (∃ e, (add_to_cart s ⟨uid, pid, q⟩).2 = Except.error e ∧
      isInsufficientStock e = true) ↔ p.stock < q := by
  by_cases hq : p.stock < q
  · simp only [iff_true, hq]
    refine ⟨⟨400, "Not enough stock for product \x27" ++ p.name ++ "\x27."⟩,
      ?_, rfl⟩
    simp [add_to_cart, dictHas, hu, hp, hq]
  · simp only [iff_false, hq]
    rintro ⟨e, he, -⟩
    rw [show ¬ p.stock < q ↔ ¬ q > p.stock from Iff.rfl] at hq
    simp [add_to_cart, dictHas, hu, hp, hq] at he

/-- C3 witness: requesting 20 units of product 1 (stock 15) for user 1
fails with `InsufficientStock`. -/
theorem stock_gate_witness :
    dictGet sampleState.users_db 1 = some sampleUser ∧
    dictGet sampleState.products_db 1 = some sampleProduct ∧
    (∃ e, (add_to_cart sampleState ⟨1, 1, 20⟩).2 = Except.error e ∧
      isInsufficientStock e = true) := by
  refine ⟨rfl, rfl, ?_⟩
  exact (stock_gate sampleState 1 1 20 sampleUser sampleProduct rfl
    rfl).mpr (by decide)

/-- C5 (code bug): `add_to_cart` performs no positive-quantity guard, so a
request with quantity 0 for a valid user and product succeeds and appends a
zero-quantity line item instead of failing with `InvalidInput`. -/
theorem add_to_cart_accepts_nonpositive_quantity :
    (add_to_cart sampleState ⟨1, 1, 0⟩).2 =
      Except.ok "Added 0 of product 1 to cart for user 1" ∧
    dictGet (add_to_cart sampleState ⟨1, 1, 0⟩).1.carts_db 1 =
      some [⟨1, 0⟩] :=
  ⟨rfl, rfl⟩

/-- C6: a failing `add_to_cart` call leaves the whole state — in particular
the Cart Ledger `carts_db` — exactly as it was; `get_cart` and `checkout`
are embedded as read-only functions because the source never writes to any
store in them, so `add_to_cart` is the only mutating operation. -/
theorem failure_preserves_cart_ledger (s : State) (req : AddToCartRequest)
    (e : ApiError) (h : (add_to_cart s req).2 = Except.error e) :
    (add_to_cart s req).1 = s := by
  rcases hc : add_to_cart s req with ⟨s', r⟩
  rw [hc] at h
  simp only at h
  subst h
  exact add_to_cart_error hc

/-- C6 witness: the failing call for unknown user 99 returns the input
state unchanged. -/
theorem failure_preserves_cart_ledger_witness :
    (add_to_cart sampleState ⟨99, 1, 1⟩).2 =
      Except.error ⟨404, "User not found"⟩ ∧
    (add_to_cart sampleState ⟨99, 1, 1⟩).1 = sampleState :=
  ⟨rfl, failure_preserves_cart_ledger sampleState ⟨99, 1, 1⟩
    ⟨404, "User not found"⟩ rfl⟩

/-- C9: when the user's cart is absent or recorded as the empty list,
`get_cart` fails with one fixed `NotFound` error and (for a registered
user) `checkout` fails with one fixed `NotFound` error; both cases produce
literally the same result, so they are indistinguishable. -/
theorem empty_and_absent_cart_not_found (s : State) (uid : Int)
    (h : dictGet s.carts_db uid = none ∨ dictGet s.carts_db uid = some []) :
    get_cart s uid = Except.error ⟨404, "Cart not found for this user"⟩ ∧
    isNotFound ⟨404, "Cart not found for this user"⟩ = true ∧
    (dictHas s.users_db uid = true →
      checkout s uid = Except.error ⟨404, "Cart not found for this user."⟩) ∧
    isNotFound ⟨404, "Cart not found for this user."⟩ = true := by
  refine ⟨?_, rfl, fun hu => ?_, rfl⟩
  · rcases h with h | h <;> simp [get_cart, h]
  · rcases h with h | h <;> simp [checkout, hu, h]

/-- C9 witness: user 1 of `sampleState` has no cart recorded, and
`get_cart` fails with the fixed `NotFound` error. -/
theorem empty_and_absent_cart_not_found_witness :
    (dictGet sampleState.carts_db 1 = none ∨
      dictGet sampleState.carts_db 1 = some []) ∧
    get_cart sampleState 1 =
      Except.error ⟨404, "Cart not found for this user"⟩ :=
  ⟨Or.inl rfl,
    (empty_and_absent_cart_not_found sampleState 1 (Or.inl rfl)).1⟩

/-! ### Reachability invariants -/

theorem stepAdd_cases {s s' : State} (h : stepAdd s s') :
    s' = s ∨ ∃ (req : AddToCartRequest) (product : Product),
      dictHas s.users_db req.user_id = true ∧
      dictGet s.products_db req.product_id = some product ∧
      req.quantity ≤ product.stock ∧
      s' = ⟨s.users_db, s.products_db,
        dictSet s.carts_db req.user_id
          (mergeLine ((dictGet s.carts_db req.user_id).getD [])
            req.product_id req.quantity)⟩ := by
  obtain ⟨req, hreq⟩ := h
  rcases hr : add_to_cart s req with ⟨s₀, r⟩
  rw [hr] at hreq
  simp only at hreq
  cases r with
  | error e =>
    left
    rw [← hreq]
    exact add_to_cart_error hr
  | ok m =>
    right
    obtain ⟨hu, p, hp, hq, hs⟩ := add_to_cart_ok hr
    exact ⟨req, p, hu, hp, hq, by rw [← hreq, hs]⟩

theorem reachable_cart_user (s : State) (h : Reachable s) :
    ∀ uid, dictHas s.carts_db uid = true → dictHas s.users_db uid = true := by
  induction h with
  | init users products =>
    intro uid hc
    simp [dictHas, dictGet] at hc
  | step hr hstep ih =>
    intro uid hc
    rcases stepAdd_cases hstep with heq | ⟨req, p, hu, hp, hq, hs⟩
    · subst heq
      exact ih uid hc
    · subst hs
      dsimp only at hc ⊢
      rcases dictHas_dictSet _ _ _ _ hc with heq | hc'
      · subst heq
        exact hu
      · exact ih uid hc'

theorem reachable_get_none (s : State) (h : Reachable s) (uid : Int)
    (hu : dictHas s.users_db uid = false) :
    dictGet s.carts_db uid = none := by
  by_contra hne
  have hhas : dictHas s.carts_db uid = true := by
    simpa [dictHas, Option.isSome_iff_ne_none] using hne
  have := reachable_cart_user s h uid hhas
  rw [this] at hu
  exact absurd hu (by decide)

theorem reachable_nodup (s : State) (h : Reachable s) :
    ∀ uid cart, dictGet s.carts_db uid = some cart →
      (cart.map (·.product_id)).Nodup := by
  induction h with
  | init users products =>
    intro uid cart hc
    simp [dictGet] at hc
  | step hr hstep ih =>
    rename_i t t'
    intro uid cart hc
    rcases stepAdd_cases hstep with heq | ⟨req, p, hu, hp, hq, hs⟩
    · subst heq
      exact ih uid cart hc
    · subst hs
      dsimp only at hc
      by_cases huid : uid = req.user_id
      · subst huid
        rw [dictGet_dictSet_self] at hc
        have hold : (((dictGet t.carts_db req.user_id).getD []).map
            (·.product_id)).Nodup := by
          rcases hget : dictGet t.carts_db req.user_id with _ | c
          · simp
          · simpa using ih req.user_id c hget
        have hcart := Option.some.inj hc
        rw [← hcart]
        exact mergeLine_nodup _ _ _ hold
      · rw [dictGet_dictSet_ne _ _ _ _ huid] at hc
        exact ih uid cart hc

theorem checkoutLoop_error_of_missing (pdb : List (Int × Product))
    (cart : Cart) (item : ProductInOrder) (hmem : item ∈ cart)
    (hmiss : dictGet pdb item.product_id = none) :
    ∀ acc, ∃ e, checkoutLoop pdb cart acc = Except.error e ∧
      isNotFound e = true := by
  induction cart with
  | nil => cases hmem
  | cons hd tl ih =>
    intro acc
    rcases List.mem_cons.mp hmem with rfl | hmem'
    · exact ⟨⟨404, "Product with ID " ++ toString item.product_id ++
        " in cart not found."⟩, by simp [checkoutLoop, hmiss], rfl⟩
    · rcases hhd : dictGet pdb hd.product_id with _ | p
      · exact ⟨⟨404, "Product with ID " ++ toString hd.product_id ++
          " in cart not found."⟩, by simp [checkoutLoop, hhd], rfl⟩
      · obtain ⟨e, he, hnf⟩ := ih hmem' (acc + p.price * (hd.quantity : ℚ))
        exact ⟨e, by simp [checkoutLoop, hhd, he], hnf⟩

/-- C7: in every state reachable from the empty-carts initial state by
cart-API calls, no user's cart holds two line items with the same product
identifier. -/
theorem cart_product_ids_nodup (s : State) (h : Reachable s) (uid : Int)
    (cart : Cart) (hc : dictGet s.carts_db uid = some cart) :
    (cart.map (·.product_id)).Nodup :=
  reachable_nodup s h uid cart hc

/-- C7 witness: the reachable state after one add has a duplicate-free
cart for user 1. -/
theorem cart_product_ids_nodup_witness :
    Reachable sampleState1 ∧
    dictGet sampleState1.carts_db 1 = some [⟨1, 5⟩] ∧
    (([⟨1, 5⟩] : Cart).map (·.product_id)).Nodup := by
  have hreach : Reachable sampleState1 :=
    Reachable.step
      (Reachable.init sampleState.users_db sampleState.products_db)
      ⟨⟨1, 1, 5⟩, rfl⟩
  exact ⟨hreach, rfl,
    cart_product_ids_nodup sampleState1 hreach 1 [⟨1, 5⟩] rfl⟩

/-- C10: in every reachable state, every user id with a Cart Ledger entry
is registered in `users_db` (AddToCart checks user existence before
creating a cart), so `get_cart` for an unregistered user always fails with
`NotFound` even though `get_cart` itself performs no user check. -/
theorem cart_keys_registered (s : State) (h : Reachable s) :
    (∀ uid, dictHas s.carts_db uid = true → dictHas s.users_db uid = true) ∧
    (∀ uid, dictHas s.users_db uid = false →
      ∃ e, get_cart s uid = Except.error e ∧ isNotFound e = true) := by
  refine ⟨reachable_cart_user s h, fun uid hu => ?_⟩
  have hnone := reachable_get_none s h uid hu
  exact ⟨⟨404, "Cart not found for this user"⟩,
    by simp [get_cart, hnone], rfl⟩

/-- C10 witness: in the initial `sampleState`, unregistered user 99 has no
cart and `get_cart` fails with `NotFound`. -/
theorem cart_keys_registered_witness :
    Reachable sampleState ∧
    dictHas sampleState.users_db 99 = false ∧
    (∃ e, get_cart sampleState 99 = Except.error e ∧
      isNotFound e = true) := by
  have hreach : Reachable sampleState :=
    Reachable.init sampleState.users_db sampleState.products_db
  exact ⟨hreach, rfl, (cart_keys_registered sampleState hreach).2 99 rfl⟩

/-- C4: over an arbitrary state, `add_to_cart` and `checkout` fail with
`NotFound` on an unknown user id, and `get_cart` does too in every
reachable state (it has no user check of its own, so reachability supplies
the absent-cart fact); `add_to_cart` fails with `NotFound` on a product id
absent from the catalog; and `checkout` fails with `NotFound` — returning
an error rather than any partial summary — when some cart line item
references a product id no longer in the catalog.  The last conjunct is
stated over arbitrary states because the catalog is mutated externally:
within the cart operations alone a cart item's product never disappears. -/
theorem missing_entity_not_found (s : State) (uid pid q : Int) :
    (dictHas s.users_db uid = false →
      (∃ e, (add_to_cart s ⟨uid, pid, q⟩).2 = Except.error e ∧
        isNotFound e = true) ∧
      (Reachable s →
        ∃ e, get_cart s uid = Except.error e ∧ isNotFound e = true) ∧
      (∃ e, checkout s uid = Except.error e ∧ isNotFound e = true)) ∧
    (dictHas s.users_db uid = true → dictGet s.products_db pid = none →
      ∃ e, (add_to_cart s ⟨uid, pid, q⟩).2 = Except.error e ∧
        isNotFound e = true) ∧
    (∀ cart item, dictHas s.users_db uid = true →
      dictGet s.carts_db uid = some cart → item ∈ cart →
      dictGet s.products_db item.product_id = none →
      ∃ e, checkout s uid = Except.error e ∧ isNotFound e = true) := by
  refine ⟨fun hu => ⟨?_, fun hreach => ?_, ?_⟩, fun hu hp => ?_,
    fun cart item hu hc hmem hmiss => ?_⟩
  · exact ⟨⟨404, "User not found"⟩, by simp [add_to_cart, hu], rfl⟩
  · have hnone := reachable_get_none s hreach uid hu
    exact ⟨⟨404, "Cart not found for this user"⟩,
      by simp [get_cart, hnone], rfl⟩
  · exact ⟨⟨404, "User not found"⟩, by simp [checkout, hu], rfl⟩
  · exact ⟨⟨404, "Product not found"⟩, by simp [add_to_cart, hu, hp], rfl⟩
  · obtain ⟨e, hloop, hnf⟩ :=
      checkoutLoop_error_of_missing s.products_db cart item hmem hmiss 0
    refine ⟨e, ?_, hnf⟩
    cases cart with
    | nil => cases hmem
    | cons hd tl => simp [checkout, hu, hc, hloop]

/-- C4 witness: in `sampleState`, `add_to_cart` for the unregistered user
99 fails with `NotFound`; and in `sampleStateMissing`, where user 1's cart
references product 2 which the catalog no longer holds, `checkout` fails
with `NotFound`. -/
theorem missing_entity_not_found_witness :
    (dictHas sampleState.users_db 99 = false ∧
      ∃ e, (add_to_cart sampleState ⟨99, 42, 1⟩).2 = Except.error e ∧
        isNotFound e = true) ∧
    (dictHas sampleStateMissing.users_db 1 = true ∧
      dictGet sampleStateMissing.carts_db 1 = some [⟨2, 3⟩] ∧
      dictGet sampleStateMissing.products_db 2 = none ∧
      ∃ e, checkout sampleStateMissing 1 = Except.error e ∧
        isNotFound e = true) :=
  ⟨⟨rfl, ((missing_entity_not_found sampleState 99 42 1).1 rfl).1⟩,
    ⟨rfl, rfl, rfl,
      (missing_entity_not_found sampleStateMissing 1 2 1).2.2
        [⟨2, 3⟩] ⟨2, 3⟩ rfl rfl
        (List.mem_cons_self (⟨2, 3⟩ : ProductInOrder) []) rfl⟩⟩

/-! ### Checkout totals and order preservation -/

theorem checkoutLoop_ok (pdb : List (Int × Product)) (cart : Cart) :
    (∀ item ∈ cart, (dictGet pdb item.product_id).isSome = true) →
    ∀ acc : ℚ, checkoutLoop pdb cart acc =
      Except.ok (acc + specCartTotal pdb cart) := by
  induction cart with
  | nil =>
    intro _ acc
    simp [checkoutLoop, specCartTotal]
  | cons hd tl ih =>
    intro hall acc
    have h1 := hall hd (List.mem_cons_self hd tl)
    rcases hp : dictGet pdb hd.product_id with _ | p
    · rw [hp] at h1
      simp at h1
    · have hstep : checkoutLoop pdb (hd :: tl) acc =
          checkoutLoop pdb tl (acc + p.price * (hd.quantity : ℚ)) := by
        simp [checkoutLoop, hp]
      rw [hstep,
        ih (fun item hm => hall item (List.mem_cons_of_mem hd hm)) _]
      simp only [specCartTotal, List.map_cons, List.sum_cons, hp,
        Option.map_some', Option.getD_some, Except.ok.injEq]
      ring

/-- C2: for a registered user whose cart is non-empty and whose every line
item resolves in the catalog, `checkout` succeeds; its `cart_items` are
exactly the stored cart and its total is the sum over the line items of
catalog unit price times quantity (`specCartTotal`). -/
theorem checkout_totals (s : State) (uid : Int) (cart : Cart)
    (huser : dictHas s.users_db uid = true)
    (hcart : dictGet s.carts_db uid = some cart)
    (hne : cart ≠ [])
    (hall : ∀ item ∈ cart,
      (dictGet s.products_db item.product_id).isSome = true) :
    checkout s uid =
      Except.ok ⟨cart, specCartTotal s.products_db cart⟩ := by
  cases cart with
  | nil => exact absurd rfl hne
  | cons hd tl =>
    have hloop := checkoutLoop_ok s.products_db (hd :: tl) hall 0
    simp [checkout, huser, hcart, hloop]

/-- C2 witness: checking out user 1 with cart `[(1, 5)]` returns those
line items and the spec total. -/
theorem checkout_totals_witness :
    dictHas sampleState1.users_db 1 = true ∧
    dictGet sampleState1.carts_db 1 = some [⟨1, 5⟩] ∧
    (([⟨1, 5⟩] : Cart) ≠ []) ∧
    (∀ item ∈ ([⟨1, 5⟩] : Cart),
      (dictGet sampleState1.products_db item.product_id).isSome = true) ∧
    checkout sampleState1 1 =
      Except.ok ⟨[⟨1, 5⟩], specCartTotal sampleState1.products_db
        [⟨1, 5⟩]⟩ := by
  refine ⟨rfl, rfl, by simp, ?_, ?_⟩
  · intro item hm
    rcases List.mem_singleton.mp hm with rfl
    rfl
  · exact checkout_totals sampleState1 1 [⟨1, 5⟩] rfl rfl (by simp)
      (fun item hm => by rcases List.mem_singleton.mp hm with rfl; rfl)

theorem runAdds_ids (uid : Int) (reqs : List AddToCartRequest) :
    ∀ s s' : State, (∀ r ∈ reqs, r.user_id = uid) →
    runAdds s reqs = some s' →
    ((dictGet s'.carts_db uid).getD []).map (·.product_id) =
      insertionOrder
        (((dictGet s.carts_db uid).getD []).map (·.product_id))
        (reqs.map (·.product_id)) := by
  induction reqs with
  | nil =>
    intro s s' _ h
    simp only [runAdds, Option.some.injEq] at h
    subst h
    simp [insertionOrder]
  | cons req rest ih =>
    intro s s' hall h
    rcases hr : add_to_cart s req with ⟨s₀, r⟩
    simp only [runAdds, hr] at h
    cases r with
    | error e => simp at h
    | ok m =>
      obtain ⟨hu, p, hp, hq, hs⟩ := add_to_cart_ok hr
      have huid : req.user_id = uid :=
        hall req (List.mem_cons_self req rest)
      have hrest : ∀ r ∈ rest, r.user_id = uid :=
        fun r hm => hall r (List.mem_cons_of_mem req hm)
      have hids : ((dictGet s₀.carts_db uid).getD []).map (·.product_id) =
          if req.product_id ∈
              ((dictGet s.carts_db uid).getD []).map (·.product_id)
          then ((dictGet s.carts_db uid).getD []).map (·.product_id)
          else ((dictGet s.carts_db uid).getD []).map (·.product_id) ++
            [req.product_id] := by
        rw [hs]
        dsimp only
        rw [huid, dictGet_dictSet_self, Option.getD_some, mergeLine_map]
      rw [ih s₀ s' hrest h, hids]
      simp [insertionOrder]

/-- C8: running a sequence of successful `add_to_cart` calls for one user,
the user's cart lists each product id at the position of its first
insertion (`insertionOrder`); later merges do not move it.  `get_cart`
returns the stored cart unchanged and the checkout summary's `cart_items`
are the stored cart, so both present the line items in that order. -/
theorem order_preservation (s : State) (uid : Int)
    (reqs : List AddToCartRequest) (s' : State)
    (hall : ∀ r ∈ reqs, r.user_id = uid)
    (hrun : runAdds s reqs = some s') :
    ((dictGet s'.carts_db uid).getD []).map (·.product_id) =
      insertionOrder
        (((dictGet s.carts_db uid).getD []).map (·.product_id))
        (reqs.map (·.product_id)) ∧
    (∀ cart, dictGet s'.carts_db uid = some cart → cart ≠ [] →
      get_cart s' uid = Except.ok cart) ∧
    (∀ summary, checkout s' uid = Except.ok summary →
      dictGet s'.carts_db uid = some summary.cart_items) := by
  refine ⟨runAdds_ids uid reqs s s' hall hrun, ?_, ?_⟩
  · intro cart hc hne
    cases cart with
    | nil => exact absurd rfl hne
    | cons hd tl => simp [get_cart, hc]
  · intro summary hs
    unfold checkout at hs
    split at hs
    · exact absurd hs (by simp)
    · split at hs
      · exact absurd hs (by simp)
      · exact absurd hs (by simp)
      · rename_i cart_items heq
        split at hs
        · exact absurd hs (by simp)
        · rw [← Except.ok.inj hs]
          exact heq

/-- C8 witness: adding products 1, 2, then 1 again for user 1 leaves the
cart ids in first-insertion order `[1, 2]`. -/
theorem order_preservation_witness :
    (∀ r ∈ ([⟨1, 1, 5⟩, ⟨1, 2, 1⟩, ⟨1, 1, 3⟩] : List AddToCartRequest),
      r.user_id = 1) ∧
    runAdds sampleState [⟨1, 1, 5⟩, ⟨1, 2, 1⟩, ⟨1, 1, 3⟩] =
      some ⟨sampleState.users_db, sampleState.products_db,
        [(1, [⟨1, 8⟩, ⟨2, 1⟩])]⟩ ∧
    ((dictGet (State.mk sampleState.users_db sampleState.products_db
        [(1, [⟨1, 8⟩, ⟨2, 1⟩])]).carts_db 1).getD []).map (·.product_id) =
      insertionOrder
        (((dictGet sampleState.carts_db 1).getD []).map (·.product_id))
        (([⟨1, 1, 5⟩, ⟨1, 2, 1⟩, ⟨1, 1, 3⟩] :
          List AddToCartRequest).map (·.product_id)) := by
  refine ⟨by decide, rfl, ?_⟩
  exact (order_preservation sampleState 1 [⟨1, 1, 5⟩, ⟨1, 2, 1⟩, ⟨1, 1, 3⟩]
    ⟨sampleState.users_db, sampleState.products_db,
      [(1, [⟨1, 8⟩, ⟨2, 1⟩])]⟩ (by decide) rfl).1

end Ecommerce
